import Mathlib

/-!
Shallow embedding of `src/lspy/lspy.py` (a directory-listing utility) and
proofs about its listing pipeline.

Modelling conventions:
* `pathlib.Path` values are modelled as lists of path components (`Pth`);
  `Path.name` is the last component (empty for `Path('.')` = `[]`) and
  `Path.parent` drops the last component, with no normalisation of `'..'`,
  exactly like `pathlib`.
* The filesystem is a function `Pth → Option Node`; `Node.file` is a regular
  file, `Node.dir cs` a directory whose `os.listdir` order is the order of
  `cs`.  `os.walk` (top-down, directories first, then recursion into the
  directory children in order) is `walkNode`.
* Python exceptions that matter to the claims are the constructors of
  `PyErr`; `sys.exit()` raised from `list_dir` is the `ExitCond` error of
  `list_dir` (its `code` field is the process exit status, `0` for a bare
  `sys.exit()`).
* `locale.strxfrm` is an opaque parameter `xfrm : String → String`; the sort
  keys produced by the program are compared exactly as Python compares
  strings, i.e. lexicographically by code point (`strLe`).  `list.sort` is
  stable, modelled by the stable insertion sort `stableSort`; with
  `reverse=True` Python keeps equal elements in their original order, which
  corresponds to inserting an earlier element before a later one whenever its
  key is `≥` (relation `byKeyRev`).
* `stat.filemode`, `strftime` timestamps and the ANSI-coloured names computed
  by `prep_name` are opaque per-file string inputs (`PFile` / `SFile`): the
  claims under verification never inspect their internal structure.
* `grp`/`pwd` availability (the `try: … except ImportError` at lines 44–51)
  is a `Platform` record: `pwdGrpAvailable` is whether the two modules can be
  loaded, and `pw_name`/`gr_name` are the name databases.
-/

namespace Lspy

/-- Python exceptions relevant to the claims.  `osError` is the class caught
by the `except OSError` handler in `lspy()` (line 197); the others are not
subclasses of `OSError`. -/
inductive PyErr where
  | indexError : PyErr
  | valueError : PyErr
  | zeroDivisionError : PyErr
  | osError : PyErr
deriving DecidableEq, Repr

/-- Model of the `except OSError` clause of `lspy()` (lines 192–198): only
`OSError` is caught, the other exceptions propagate out of the program. -/
def caughtByLspyHandler : PyErr → Bool
  | .osError => true
  | _ => false

/-- Outcome of `sys.exit()` reached in `list_dir` (line 183): the message
printed just before (line 182) and the process exit status.  A bare
`sys.exit()` raises `SystemExit(None)`, which terminates with status 0. -/
structure ExitCond where
  message : String
  code : Nat
deriving DecidableEq, Repr

/-- Model of a `pathlib.Path`: the list of components.  `[]` is `Path('.')`. -/
abbrev Pth := List String

/-- Model of `Path.name`: the last component (empty for `Path('.')`). -/
def pthName (p : Pth) : String := p.getLastD ""

/-- Model of `Path.parent`: drops the last component, `Path('.')` for a
single-component relative path (`pathlib` does not normalise `..`). -/
def pthParent (p : Pth) : Pth := p.dropLast

/-- Parsed command-line arguments (the `argparse` namespace of
`parse_args`), with path arguments already converted to component lists. -/
structure Args where
  long : Bool
  all : Bool
  sort : Bool
  recursive : Bool
  files : List Pth

/-- Filesystem object: a regular file or a directory with named children in
`os.listdir` order. -/
inductive Node where
  | file : Node
  | dir : List (String × Node) → Node

/-- Whether a node is a directory (`Path.is_dir` / the split `os.walk`
performs between `dirs` and `files`). -/
def isDirNode : Node → Bool
  | .dir _ => true
  | .file => false

/-- Names of the directory children, in listing order (the `dirs_r` of
`os.walk`). -/
def dirNames (cs : List (String × Node)) : List String :=
  (cs.filter fun c => isDirNode c.2).map fun c => c.1

/-- Names of the non-directory children, in listing order (the `files_r` of
`os.walk`). -/
def fileNames (cs : List (String × Node)) : List String :=
  (cs.filter fun c => !isDirNode c.2).map fun c => c.1

/-- One triple yielded by `os.walk`: the visited directory path, its
subdirectory names and its file names. -/
abbrev Grp := Pth × List String × List String

mutual

/-- Model of `os.walk(path)` (top-down): yield the root triple, then walk the
directory children in order.  Called on a file it yields nothing. -/
def walkNode : Pth → Node → List Grp
  | _, .file => []
  | p, .dir cs => (p, dirNames cs, fileNames cs) :: walkChildren p cs

/-- Companion of `walkNode`: walks each directory child of a visited
directory in listing order. -/
def walkChildren : Pth → List (String × Node) → List Grp
  | _, [] => []
  | p, (nm, c) :: rest =>
      (if isDirNode c then walkNode (p ++ [nm]) c else []) ++ walkChildren p rest

end

/-- Boolean test that `p` is a prefix of `s` (model of `str.startswith`). -/
def listStartsWith : List Char → List Char → Bool
  | _, [] => true
  | [], _ :: _ => false
  | a :: as, b :: bs => a == b && listStartsWith as bs

/-- Model of `s.startswith(p)` on Python strings. -/
def strStartsWith (s p : String) : Bool := listStartsWith s.data p.data

/-- One group of the recursive branch of `list_dir` (lines 166–172): the walk
triple is turned into child paths `root / n` for `n` in `dirs_r ++ files_r`,
and when `--all` is set, `Path('.')` and `root / '..'` are prepended. -/
def recGroup (args : Args) (wg : Grp) : List Pth :=
  let base := (wg.2.1 ++ wg.2.2).map fun n => wg.1 ++ [n]
  if args.all then ([] : Pth) :: (wg.1 ++ [".."]) :: base else base

/-- One group of the non-recursive directory branch of `list_dir`
(lines 174–180): the immediate children as paths; with `--all` the parent of
the argument and `path / '..'` are prepended, otherwise children whose name
starts with `'.'` are removed. -/
def nonRecGroup (args : Args) (p : Pth) (cs : List (String × Node)) : List Pth :=
  let base := cs.map fun c => p ++ [c.1]
  if args.all then pthParent p :: (p ++ [".."]) :: base
  else base.filter fun d => !(strStartsWith (pthName d) ".")

/-- Groups produced by `list_dir` for one existing path argument: a file is
its own singleton group; a directory yields the walk groups in recursive
mode, otherwise the single non-recursive group. -/
def pathGroups (args : Args) (p : Pth) (node : Node) : List (List Pth) :=
  match node with
  | .file => [[p]]
  | .dir cs =>
    if args.recursive then (walkNode p (Node.dir cs)).map (recGroup args)
    else [nonRecGroup args p cs]

/-- Body of the loop of `list_dir` (lines 160–183) over the path arguments:
the first missing path prints `Specified path does not exist.` and calls
`sys.exit()` (exit status 0), discarding everything. -/
def listDirAux (fs : Pth → Option Node) (args : Args) : List Pth → Except ExitCond (List (List Pth))
  | [] => .ok []
  | p :: rest =>
    match fs p with
    | none => .error ⟨"Specified path does not exist.", 0⟩
    | some node =>
      match listDirAux fs args rest with
      | .error e => .error e
      | .ok gs => .ok (pathGroups args p node ++ gs)

/-- Model of `list_dir(args)` (lines 157–184) over the abstract filesystem
`fs`. -/
def list_dir (fs : Pth → Option Node) (args : Args) : Except ExitCond (List (List Pth)) :=
  listDirAux fs args args.files

/-- Lexicographic comparison of char lists by code point: Python's `<=` on
the (strxfrm-transformed) sort-key strings. -/
def lexLe : List Char → List Char → Bool
  | [], _ => true
  | _ :: _, [] => false
  | a :: as, b :: bs =>
    if a.toNat < b.toNat then true
    else if b.toNat < a.toNat then false
    else lexLe as bs

/-- Python string comparison `s <= t` (code-point lexicographic). -/
def strLe (s t : String) : Bool := lexLe s.data t.data

/-- Comparison used by a stable ascending `list.sort(key=key)`: an element
goes before another iff its key is `≤`. -/
def byKey (key : α → String) (a b : α) : Bool := strLe (key a) (key b)

/-- Comparison used by a stable descending `list.sort(key=key, reverse=True)`:
an element goes before another iff its key is `≥` (so equal keys keep their
original order, as CPython guarantees). -/
def byKeyRev (key : α → String) (a b : α) : Bool := strLe (key b) (key a)

/-- Stable insertion: place `a` before the first element `b` with `r a b`. -/
def stableInsert (r : α → α → Bool) (a : α) : List α → List α
  | [] => [a]
  | b :: l => if r a b then a :: b :: l else b :: stableInsert r a l

/-- Stable sort by the comparison `r` (model of CPython's stable
`list.sort`): inserting from the right keeps equal elements in input
order. -/
def stableSort (r : α → α → Bool) : List α → List α
  | [] => []
  | a :: l => stableInsert r a (stableSort r l)

/-- Fields of one `os.lstat` result that the claims inspect. -/
structure FileStats where
  st_size : Nat
  st_nlink : Nat
  st_uid : Nat
  st_gid : Nat
deriving DecidableEq, Repr

/-- Platform capabilities for owner/group resolution: whether
`from pwd import getpwuid` / `from grp import getgrgid` succeed (they raise
`ImportError` on Windows), and the two name databases. -/
structure Platform where
  pwdGrpAvailable : Bool
  pw_name : Nat → String
  gr_name : Nat → String

/-- Lines 44–51 of `ls_long`, exactly as written: with the databases
available, `owner = getpwuid(st_uid).pw_name` and
`group = getgrgid(st_uid).gr_name` (the group lookup is fed `st_uid`);
on `ImportError`, `owner = str(st_gid)` and `group = str(st_uid)`. -/
def resolveOwnerGroup (plat : Platform) (st : FileStats) : String × String :=
  if plat.pwdGrpAvailable then (plat.pw_name st.st_uid, plat.gr_name st.st_uid)
  else (Nat.repr st.st_gid, Nat.repr st.st_uid)

/-- One `long_entry` row `[mode, nlink, owner, group, size, time, fn_name,
color_name]` (line 61), as a record; positional index 1 is `nlink`, index 4
is `size`, index -2 is `fn_name`. -/
structure LongEntry where
  mode : String
  nlink : String
  owner : String
  group : String
  size : String
  time : String
  fn_name : String
  color_name : String
deriving DecidableEq, Repr

/-- Per-file input of the long-format loop body (lines 39–62): the `lstat`
fields plus the opaque strings computed by `stat.filemode`, `strftime` and
`prep_name`. -/
structure PFile where
  stats : FileStats
  modeStr : String
  timeStr : String
  fnName : String
  colorName : String
deriving DecidableEq, Repr

/-- Construction of one `long_entry` (lines 40–61): `nlink` and `size` are
`str()` of the stat fields, owner/group come from `resolveOwnerGroup`. -/
def buildLongEntry (plat : Platform) (f : PFile) : LongEntry :=
  let og := resolveOwnerGroup plat f.stats
  ⟨f.modeStr, Nat.repr f.stats.st_nlink, og.1, og.2,
   Nat.repr f.stats.st_size, f.timeStr, f.fnName, f.colorName⟩

/-- Contribution of one file to `total_blocks` (line 54):
`math.ceil(st_size / 1024)`, which for naturals is `(st_size + 1023) / 1024`. -/
def ceilBlocks (sz : Nat) : Nat := (sz + 1023) / 1024

/-- Sum of the block counts of one group's files. -/
def groupBlocks (files : List PFile) : Nat :=
  (files.map fun f => ceilBlocks f.stats.st_size).sum

/-- Ascending name comparison of long rows: key `locale.strxfrm(x[-2])`
(line 63). -/
def rAscLong (xfrm : String → String) : LongEntry → LongEntry → Bool :=
  byKey fun e => xfrm e.fn_name

/-- Descending size comparison of long rows: key `x[4]`, the size STRING,
with `reverse=True` (line 67). -/
def rDescLong : LongEntry → LongEntry → Bool :=
  byKeyRev fun e => e.size

/-- The name sort of a long group (line 63). -/
def sortEntriesLong (xfrm : String → String) (entries : List LongEntry) : List LongEntry :=
  stableSort (rAscLong xfrm) entries

/-- Lines 64–65 of `ls_long`: in recursive mode, `entries[0][1]` — which for
a long row is the LINK-COUNT string — is tested with `startswith('..')` and
the first two rows are swapped when it holds.  Indexing an empty list (or a
singleton when the test holds) raises `IndexError`. -/
def recursiveSwapLong (recursive : Bool) (entries : List LongEntry) :
    Except PyErr (List LongEntry) :=
  if recursive then
    match entries with
    | [] => .error .indexError
    | e0 :: rest =>
      if strStartsWith e0.nlink ".." then
        match rest with
        | [] => .error .indexError
        | e1 :: rest' => .ok (e1 :: e0 :: rest')
      else .ok (e0 :: rest)
  else .ok entries

/-- Name sort followed by the recursive swap (lines 63–65). -/
def nameOrderLong (xfrm : String → String) (args : Args) (entries : List LongEntry) :
    Except PyErr (List LongEntry) :=
  recursiveSwapLong args.recursive (sortEntriesLong xfrm entries)

/-- The first `len(long_entry) - 2 = 6` positional fields of a long row
(lines 69–71 iterate `i in range(len(entries[0]) - 2)`). -/
def longFields (e : LongEntry) : List String :=
  [e.mode, e.nlink, e.owner, e.group, e.size, e.time]

/-- Width of column `i`: the maximum printed length over the group
(`len(max(column, key=len))`, line 71). -/
def colWidthLong (entries : List LongEntry) (i : Nat) : Nat :=
  (entries.map fun e => ((longFields e).getD i "").length).foldl Nat.max 0

/-- The six column widths of a long group (lines 68–71). -/
def longColumnWidths (entries : List LongEntry) : List Nat :=
  (List.range 6).map (colWidthLong entries)

/-- Rendered long group: the value printed on the `total:` line (line 73),
the column widths, and the rows in final order. -/
structure LongGroupOut where
  total : Nat
  widths : List Nat
  rows : List LongEntry
deriving DecidableEq, Repr

/-- One iteration of the group loop of `ls_long` (lines 37–80) given the
running `total_blocks` value `totalIn`: build the rows, accumulate the block
total (note: `total_blocks` is initialised once at line 36, OUTSIDE the group
loop, so it carries over between groups), name-sort, apply the recursive
swap, optionally re-sort by the size string descending, then compute the
column widths — `len(entries[0])` at line 69 raises `IndexError` for an empty
group. -/
def lsLongGroup (xfrm : String → String) (plat : Platform) (args : Args)
    (totalIn : Nat) (files : List PFile) : Except PyErr LongGroupOut :=
  match nameOrderLong xfrm args (files.map (buildLongEntry plat)) with
  | .error e => .error e
  | .ok swapped =>
    match (if args.sort then stableSort rDescLong swapped else swapped) with
    | [] => .error .indexError
    | e0 :: es =>
      .ok ⟨totalIn + groupBlocks files, longColumnWidths (e0 :: es), e0 :: es⟩

/-- The group loop of `ls_long` threading the running `total_blocks`. -/
def lsLongAux (xfrm : String → String) (plat : Platform) (args : Args) :
    Nat → List (List PFile) → Except PyErr (List LongGroupOut)
  | _, [] => .ok []
  | t, g :: gs =>
    match lsLongGroup xfrm plat args t g with
    | .error e => .error e
    | .ok o =>
      match lsLongAux xfrm plat args o.total gs with
      | .error e => .error e
      | .ok rest => .ok (o :: rest)

/-- Model of `ls_long(args)` applied to the groups returned by `list_dir`,
with `total_blocks` starting at 0 (line 36). -/
def lsLong (xfrm : String → String) (plat : Platform) (args : Args)
    (groups : List (List PFile)) : Except PyErr (List LongGroupOut) :=
  lsLongAux xfrm plat args 0 groups

/-- Running partial sums: `runningTotals acc [b1, b2, …] = [acc+b1,
acc+b1+b2, …]`. -/
def runningTotals (acc : Nat) : List Nat → List Nat
  | [] => []
  | x :: xs => (acc + x) :: runningTotals (acc + x) xs

/-- Per-file input of the short-format loop body (lines 87–92). -/
structure SFile where
  st_size : Nat
  fnName : String
  colorName : String
deriving DecidableEq, Repr

/-- One `short_entry` row `[size, fn_name, color_name]` (line 91):
positional index 0 is the size STRING, index 1 (= -2) is `fn_name`. -/
structure ShortEntry where
  size : String
  fn_name : String
  color_name : String
deriving DecidableEq, Repr

/-- Construction of one `short_entry` (lines 88–91). -/
def mkShortEntry (f : SFile) : ShortEntry :=
  ⟨Nat.repr f.st_size, f.fnName, f.colorName⟩

/-- Ascending name comparison of short rows (line 93, key
`locale.strxfrm(x[-2])`). -/
def rAscShort (xfrm : String → String) : ShortEntry → ShortEntry → Bool :=
  byKey fun e => xfrm e.fn_name

/-- Descending size comparison of short rows: key `x[0]`, the size STRING,
with `reverse=True` (line 97). -/
def rDescShort : ShortEntry → ShortEntry → Bool :=
  byKeyRev fun e => e.size

/-- The name sort of a short group (line 93). -/
def sortEntriesShort (xfrm : String → String) (entries : List ShortEntry) : List ShortEntry :=
  stableSort (rAscShort xfrm) entries

/-- Lines 94–95 of `ls_short`: in recursive mode, `entries[0][1]` — here the
DISPLAY NAME — is tested with `startswith('..')` and the first two rows are
swapped when it holds; indexing errors as in the long case. -/
def recursiveSwapShort (recursive : Bool) (entries : List ShortEntry) :
    Except PyErr (List ShortEntry) :=
  if recursive then
    match entries with
    | [] => .error .indexError
    | e0 :: rest =>
      if strStartsWith e0.fn_name ".." then
        match rest with
        | [] => .error .indexError
        | e1 :: rest' => .ok (e1 :: e0 :: rest')
      else .ok (e0 :: rest)
  else .ok entries

/-- Name sort followed by the recursive swap (lines 93–95). -/
def nameOrderShort (xfrm : String → String) (args : Args) (entries : List ShortEntry) :
    Except PyErr (List ShortEntry) :=
  recursiveSwapShort args.recursive (sortEntriesShort xfrm entries)

/-- Line 98: `column_widths = max(len(row[-2]) for row in entries)`; 0 is
never produced by `max` itself — the empty case raises `ValueError` and is
handled where `maxWidth` is called. -/
def maxWidth (entries : List ShortEntry) : Nat :=
  match entries.map fun e => e.fn_name.length with
  | [] => 0
  | w :: ws => ws.foldl Nat.max w

/-- Ceiling division on naturals: `math.ceil(a / b)` for `b > 0`. -/
def ceilDiv (a b : Nat) : Nat := (a + b - 1) / b

/-- Append `a` to bucket `k` (the `grouped_rows[idxr % num_rows].append(r)`
of line 105). -/
def bucketAppend (bs : List (List α)) (k : Nat) (a : α) : List (List α) :=
  bs.set k (bs.getD k [] ++ [a])

/-- The enumeration loop of lines 104–105: entry at flat index `i` is
appended to bucket `i % m`. -/
def fillBucketsGo (m : Nat) : List (List α) → Nat → List α → List (List α)
  | bs, _, [] => bs
  | bs, i, a :: rest => fillBucketsGo m (bucketAppend bs (i % m) a) (i + 1) rest

/-- Lines 102–105: `m` initially empty buckets (`grouped_rows`), filled by
the enumeration loop. -/
def fillBuckets (m : Nat) (l : List α) : List (List α) :=
  fillBucketsGo m (List.replicate m []) 0 l

/-- Specification view of a bucket: the elements of `l` whose flat index
(counted from `i`) is congruent to `r` modulo `m`, in order. -/
def everyNthFrom (m r : Nat) : Nat → List α → List α
  | _, [] => []
  | i, a :: rest => (if i % m = r then [a] else []) ++ everyNthFrom m r (i + 1) rest

/-- Rendered short group: the final sorted entries, `column_widths` (the
single max name width, line 98), `num_cols`, `num_rows`, and the grid rows
(`grouped_rows`). -/
structure ShortOut where
  entriesSorted : List ShortEntry
  colWidth : Nat
  numCols : Nat
  numRows : Nat
  rows : List (List ShortEntry)
deriving DecidableEq, Repr

/-- Lines 98–105 of `ls_short` applied to the sorted entries: `max()` of an
empty sequence raises `ValueError`; `terminal // column_widths` (line 100)
raises `ZeroDivisionError` when the width is 0, and `math.ceil(len(entries) /
num_cols)` (line 101) raises `ZeroDivisionError` when `num_cols` is 0 — there
is no `max(1, …)` floor. -/
def shortLayout (termW : Nat) (final : List ShortEntry) : Except PyErr ShortOut :=
  match final with
  | [] => .error .valueError
  | _ :: _ =>
    let cw := maxWidth final
    if cw = 0 then .error .zeroDivisionError
    else
      let numCols := termW / cw
      if numCols = 0 then .error .zeroDivisionError
      else
        let numRows := ceilDiv final.length numCols
        .ok ⟨final, cw, numCols, numRows, fillBuckets numRows final⟩

/-- One iteration of the group loop of `ls_short` (lines 85–112) with the
terminal width `termW` (`shutil.get_terminal_size().columns`). -/
def lsShortGroup (xfrm : String → String) (args : Args) (termW : Nat)
    (files : List SFile) : Except PyErr ShortOut :=
  match nameOrderShort xfrm args (files.map mkShortEntry) with
  | .error e => .error e
  | .ok swapped =>
    shortLayout termW (if args.sort then stableSort rDescShort swapped else swapped)

/-- Value of a successful computation, or a default on error (used to name
concrete outputs in closed statements). -/
def okOr (x : Except ε α) (dflt : α) : α :=
  match x with
  | .ok v => v
  | .error _ => dflt

/-- Platform with both name databases available, used for concrete runs. -/
def plat0 : Platform := ⟨true, fun u => "user" ++ Nat.repr u, fun g => "grp" ++ Nat.repr g⟩

/-! Helper lemmas about the stable sort. -/

theorem stableInsert_perm (r : α → α → Bool) (a : α) (l : List α) :
    (stableInsert r a l).Perm (a :: l) := by
  induction l with
  | nil => simp [stableInsert]
  | cons b bs ih =>
    rw [stableInsert]
    split
    · exact .refl _
    · exact (ih.cons b).trans (List.Perm.swap a b bs)

theorem stableSort_perm (r : α → α → Bool) (l : List α) :
    (stableSort r l).Perm l := by
  induction l with
  | nil => exact .refl _
  | cons a l ih => exact (stableInsert_perm r a _).trans (ih.cons a)

theorem pairwise_stableInsert (r : α → α → Bool)
    (htot : ∀ x y, r x y = true ∨ r y x = true)
    (htr : ∀ x y z, r x y = true → r y z = true → r x z = true)
    (a : α) (l : List α) (h : l.Pairwise fun x y => r x y = true) :
    (stableInsert r a l).Pairwise fun x y => r x y = true := by
  induction l with
  | nil => simp [stableInsert]
  | cons b bs ih =>
    rcases List.pairwise_cons.mp h with ⟨hb, hbs⟩
    rw [stableInsert]
    split
    case isTrue hr =>
      refine List.pairwise_cons.mpr ⟨?_, h⟩
      intro x hx
      rcases List.mem_cons.mp hx with rfl | hx
      · exact hr
      · exact htr a b x hr (hb x hx)
    case isFalse hr =>
      refine List.pairwise_cons.mpr ⟨?_, ih hbs⟩
      intro x hx
      have hx' := (stableInsert_perm r a bs).mem_iff.mp hx
      rcases List.mem_cons.mp hx' with rfl | hx'
      · rcases htot x b with h1 | h1
        · exact absurd h1 (by simpa using hr)
        · exact h1
      · exact hb x hx'

theorem pairwise_stableSort (r : α → α → Bool)
    (htot : ∀ x y, r x y = true ∨ r y x = true)
    (htr : ∀ x y z, r x y = true → r y z = true → r x z = true)
    (l : List α) :
    (stableSort r l).Pairwise fun x y => r x y = true := by
  induction l with
  | nil => simp [stableSort]
  | cons a l ih => exact pairwise_stableInsert r htot htr a _ ih

theorem filter_stableInsert (r : α → α → Bool) (q : α → Bool) (a : α)
    (hq : ∀ b, q a = true → r a b = false → q b = false) (l : List α) :
    (stableInsert r a l).filter q = if q a then a :: l.filter q else l.filter q := by
  induction l with
  | nil => cases hqa : q a <;> simp [stableInsert, List.filter, hqa]
  | cons b bs ih =>
    rw [stableInsert]
    cases hrb : r a b with
    | true =>
      cases hqa : q a <;> simp [List.filter, hqa]
    | false =>
      simp only [Bool.false_eq_true, if_false]
      cases hqa : q a with
      | false =>
        rw [List.filter_cons, List.filter_cons, ih]
        simp [hqa]
      | true =>
        have hqb : q b = false := hq b hqa hrb
        simp [List.filter_cons, hqa, hqb, ih]

theorem filter_stableSort (r : α → α → Bool) (q : α → Bool)
    (hq : ∀ a b, q a = true → r a b = false → q b = false) (l : List α) :
    (stableSort r l).filter q = l.filter q := by
  induction l with
  | nil => rfl
  | cons a l ih =>
    rw [stableSort, filter_stableInsert r q a (fun b => hq a b), ih, List.filter_cons]

/-! Helper lemmas about the code-point string comparison. -/

theorem lexLe_refl : ∀ x : List Char, lexLe x x = true := by
  intro x
  induction x with
  | nil => rfl
  | cons a as ih => simp [lexLe, ih]

theorem lexLe_total : ∀ x y : List Char, lexLe x y = true ∨ lexLe y x = true := by
  intro x
  induction x with
  | nil => intro y; left; rfl
  | cons a as ih =>
    intro y
    cases y with
    | nil => right; rfl
    | cons b bs =>
      rw [lexLe, lexLe]
      rcases Nat.lt_trichotomy a.toNat b.toNat with h | h | h
      · left; simp [h]
      · have h1 : ¬ a.toNat < b.toNat := by omega
        have h2 : ¬ b.toNat < a.toNat := by omega
        rcases ih bs with h3 | h3
        · left; simp [h1, h2, h3]
        · right; simp [h1, h2, h3]
      · right; simp [h]

theorem lexLe_trans : ∀ x y z : List Char,
    lexLe x y = true → lexLe y z = true → lexLe x z = true := by
  intro x
  induction x with
  | nil => intro y z _ _; rfl
  | cons a as ih =>
    intro y z hxy hyz
    cases y with
    | nil => simp [lexLe] at hxy
    | cons b bs =>
      cases z with
      | nil => simp [lexLe] at hyz
      | cons c cs =>
        rw [lexLe] at hxy hyz ⊢
        split_ifs at hxy hyz ⊢ <;>
          first
          | rfl
          | omega
          | (exact ih bs cs hxy hyz)

theorem strLe_refl (s : String) : strLe s s = true := lexLe_refl s.data

theorem strLe_total (s t : String) : strLe s t = true ∨ strLe t s = true :=
  lexLe_total s.data t.data

theorem strLe_trans {s t u : String} (h1 : strLe s t = true) (h2 : strLe t u = true) :
    strLe s u = true := lexLe_trans s.data t.data u.data h1 h2

theorem strLe_false_ne {s t : String} (h : strLe s t = false) : s ≠ t := by
  intro he
  rw [he, strLe_refl] at h
  simp at h

theorem byKeyRev_total (key : α → String) :
    ∀ x y, byKeyRev key x y = true ∨ byKeyRev key y x = true := by
  intro x y
  rcases strLe_total (key x) (key y) with h | h
  · right; exact h
  · left; exact h

theorem byKeyRev_trans (key : α → String) :
    ∀ x y z, byKeyRev key x y = true → byKeyRev key y z = true →
      byKeyRev key x z = true := by
  intro x y z h1 h2
  exact strLe_trans h2 h1

theorem pairwise_stableSort_byKeyRev (key : α → String) (l : List α) :
    (stableSort (byKeyRev key) l).Pairwise fun x y => strLe (key y) (key x) = true :=
  pairwise_stableSort (byKeyRev key) (byKeyRev_total key) (byKeyRev_trans key) l

theorem filter_stableSort_byKeyRev (key : α → String) (k : String) (l : List α) :
    (stableSort (byKeyRev key) l).filter (fun x => decide (key x = k))
      = l.filter fun x => decide (key x = k) := by
  refine filter_stableSort (byKeyRev key) _ ?_ l
  intro a b ha hr
  have hak : key a = k := of_decide_eq_true ha
  have hne : key b ≠ key a := strLe_false_ne hr
  refine decide_eq_false ?_
  rw [hak] at hne
  exact hne

theorem digitChar_isDigit : ∀ m, m < 10 → (Nat.digitChar m).isDigit = true := by decide

theorem toDigitsCore_digits :
    ∀ (fuel n : Nat) (ds : List Char), (∀ c ∈ ds, c.isDigit = true) →
      ∀ c ∈ Nat.toDigitsCore 10 fuel n ds, c.isDigit = true := by
  intro fuel
  induction fuel with
  | zero => intro n ds h c hc; exact h c hc
  | succ fuel ih =>
    intro n ds h c hc
    rw [Nat.toDigitsCore] at hc
    have hd : (Nat.digitChar (n % 10)).isDigit = true :=
      digitChar_isDigit _ (Nat.mod_lt _ (by omega))
    by_cases h10 : n / 10 = 0
    · rw [if_pos h10] at hc
      rcases List.mem_cons.mp hc with rfl | hc
      · exact hd
      · exact h c hc
    · rw [if_neg h10] at hc
      refine ih _ _ ?_ c hc
      intro c' hc'
      rcases List.mem_cons.mp hc' with rfl | hc'
      · exact hd
      · exact h c' hc'

theorem natRepr_digits (n : Nat) : ∀ c ∈ (Nat.repr n).data, c.isDigit = true := by
  intro c hc
  exact toDigitsCore_digits (n + 1) n [] (by simp) c hc

theorem digits_no_dotdot (s : String) (h : ∀ c ∈ s.data, c.isDigit = true) :
    strStartsWith s ".." = false := by
  rw [strStartsWith]
  have hp : (".." : String).data = ['.', '.'] := rfl
  rw [hp]
  cases hd : s.data with
  | nil => rfl
  | cons c cs =>
    have hc : c.isDigit = true := h c (hd ▸ List.mem_cons_self c cs)
    rw [listStartsWith]
    cases hcd : (c == '.') with
    | false => simp
    | true =>
      have hce : c = '.' := by simpa using hcd
      rw [hce] at hc
      simp at hc

theorem natRepr_no_dotdot (n : Nat) : strStartsWith (Nat.repr n) ".." = false :=
  digits_no_dotdot _ (natRepr_digits n)

theorem ceilDiv_pos {n c : Nat} (hn : 0 < n) (hc : 0 < c) : 0 < ceilDiv n c := by
  rw [ceilDiv]
  have := (Nat.one_le_div_iff hc).mpr (show c ≤ n + c - 1 by omega)
  omega

theorem shortLayout_ok {termW : Nat} {final : List ShortEntry} {o : ShortOut}
    (h : shortLayout termW final = .ok o) :
    o.entriesSorted = final ∧ o.colWidth = maxWidth final ∧
      o.numCols = termW / maxWidth final ∧ o.numCols ≠ 0 ∧ final ≠ [] ∧
      o.numRows = ceilDiv final.length o.numCols ∧
      o.rows = fillBuckets o.numRows final := by
  cases final with
  | nil => simp [shortLayout] at h
  | cons e es =>
    rw [shortLayout] at h
    by_cases hcw : maxWidth (e :: es) = 0
    · simp only [hcw, if_pos rfl] at h
      · exact absurd h (by simp)
    · by_cases hnc : termW / maxWidth (e :: es) = 0
      · simp only [hcw, hnc, if_neg, if_pos, reduceIte] at h
        exact absurd h (by simp)
      · simp only [hcw, hnc, reduceIte] at h
        have hv := Except.ok.inj h
        subst hv
        refine ⟨rfl, rfl, rfl, hnc, by simp, rfl, rfl⟩

theorem lsShortGroup_ok {xfrm : String → String} {args : Args} {termW : Nat}
    {files : List SFile} {o : ShortOut}
    (h : lsShortGroup xfrm args termW files = .ok o) :
    ∃ final, shortLayout termW final = .ok o := by
  rw [lsShortGroup] at h
  cases hno : nameOrderShort xfrm args (files.map mkShortEntry) with
  | error e => rw [hno] at h; exact absurd h (by simp)
  | ok swapped =>
    rw [hno] at h
    exact ⟨_, h⟩

theorem lsShortGroup_final {xfrm : String → String} {args : Args} {termW : Nat}
    {files : List SFile} {pre : List ShortEntry} {o : ShortOut}
    (hpre : nameOrderShort xfrm args (files.map mkShortEntry) = .ok pre)
    (hsort : args.sort = true)
    (h : lsShortGroup xfrm args termW files = .ok o) :
    shortLayout termW (stableSort rDescShort pre) = .ok o := by
  rw [lsShortGroup, hpre, hsort] at h
  simpa using h

theorem lsLongGroup_rows {xfrm : String → String} {plat : Platform} {args : Args}
    {totalIn : Nat} {files : List PFile} {pre : List LongEntry} {o : LongGroupOut}
    (hpre : nameOrderLong xfrm args (files.map (buildLongEntry plat)) = .ok pre)
    (hsort : args.sort = true)
    (h : lsLongGroup xfrm plat args totalIn files = .ok o) :
    o.rows = stableSort rDescLong pre := by
  rw [lsLongGroup, hpre, hsort] at h
  simp only [reduceIte] at h
  cases hfin : stableSort rDescLong pre with
  | nil => rw [hfin] at h; exact absurd h (by simp)
  | cons e0 es =>
    rw [hfin] at h
    have hv := Except.ok.inj h
    subst hv
    rfl

theorem lsLongGroup_total {xfrm : String → String} {plat : Platform} {args : Args}
    {totalIn : Nat} {files : List PFile} {o : LongGroupOut}
    (h : lsLongGroup xfrm plat args totalIn files = .ok o) :
    o.total = totalIn + groupBlocks files := by
  rw [lsLongGroup] at h
  cases hno : nameOrderLong xfrm args (files.map (buildLongEntry plat)) with
  | error e => rw [hno] at h; exact absurd h (by simp)
  | ok swapped =>
    rw [hno] at h
    dsimp only at h
    cases hfin : (if args.sort then stableSort rDescLong swapped else swapped) with
    | nil => rw [hfin] at h; exact absurd h (by simp)
    | cons e0 es =>
      rw [hfin] at h
      have hv := Except.ok.inj h
      subst hv
      rfl

theorem lsLongAux_totals {xfrm : String → String} {plat : Platform} {args : Args} :
    ∀ {groups : List (List PFile)} {t : Nat} {outs : List LongGroupOut},
      lsLongAux xfrm plat args t groups = .ok outs →
      outs.map (fun o => o.total) = runningTotals t (groups.map groupBlocks) := by
  intro groups
  induction groups with
  | nil =>
    intro t outs h
    rw [lsLongAux] at h
    have hv := Except.ok.inj h
    subst hv
    rfl
  | cons g gs ih =>
    intro t outs h
    rw [lsLongAux] at h
    cases hg : lsLongGroup xfrm plat args t g with
    | error e => rw [hg] at h; exact absurd h (by simp)
    | ok o =>
      rw [hg] at h
      dsimp only at h
      cases hrest : lsLongAux xfrm plat args o.total gs with
      | error e => rw [hrest] at h; exact absurd h (by simp)
      | ok rest =>
        rw [hrest] at h
        have hv := Except.ok.inj h
        subst hv
        have htot := lsLongGroup_total hg
        rw [List.map_cons, List.map_cons, runningTotals, ← htot, ih hrest]

theorem listDirAux_missing {fs : Pth → Option Node} {args : Args} :
    ∀ {ps : List Pth}, (∃ p ∈ ps, fs p = none) →
      listDirAux fs args ps = .error ⟨"Specified path does not exist.", 0⟩ := by
  intro ps
  induction ps with
  | nil => rintro ⟨p, hp, _⟩; simp at hp
  | cons p rest ih =>
    rintro ⟨q, hq, hqnone⟩
    rw [listDirAux]
    rcases List.mem_cons.mp hq with rfl | hq
    · rw [hqnone]
    · cases hfp : fs p with
      | none => rfl
      | some node => rw [ih ⟨q, hq, hqnone⟩]

theorem pthName_append_singleton (p : Pth) (n : String) : pthName (p ++ [n]) = n := by
  rw [pthName, List.getLastD_concat]

theorem recGroup_names {args : Args} (hall : args.all = false) (wg : Grp) :
    (recGroup args wg).map pthName = wg.2.1 ++ wg.2.2 := by
  rw [recGroup]
  simp only [hall, Bool.false_eq_true, if_false, List.map_map]
  rw [List.map_congr_left fun n _ => by
    show pthName (wg.1 ++ [n]) = n
    exact pthName_append_singleton wg.1 n]
  exact List.map_id _

theorem dirNames_fileNames_perm (cs : List (String × Node)) :
    (dirNames cs ++ fileNames cs).Perm (cs.map Prod.fst) := by
  rw [dirNames, fileNames, ← List.map_append]
  exact (List.filter_append_perm _ cs).map Prod.fst

theorem length_bucketAppend (bs : List (List α)) (k : Nat) (a : α) :
    (bucketAppend bs k a).length = bs.length := by
  simp [bucketAppend]

theorem bucketAppend_cons_succ (b : List α) (bs : List (List α)) (k : Nat) (a : α) :
    bucketAppend (b :: bs) (k + 1) a = b :: bucketAppend bs k a := rfl

theorem flatten_bucketAppend (bs : List (List α)) (k : Nat) (a : α) (hk : k < bs.length) :
    (bucketAppend bs k a).flatten.Perm (a :: bs.flatten) := by
  induction bs generalizing k with
  | nil => simp at hk
  | cons b bs ih =>
    cases k with
    | zero =>
      show ((b ++ [a]) :: bs).flatten.Perm (a :: (b :: bs).flatten)
      simp only [List.flatten_cons, List.append_assoc, List.singleton_append]
      exact List.perm_middle
    | succ k =>
      have hk' : k < bs.length := by simpa using hk
      rw [bucketAppend_cons_succ]
      simp only [List.flatten_cons]
      exact ((ih k hk').append_left b).trans List.perm_middle

theorem fillBucketsGo_flatten (m : Nat) (hm : 0 < m) :
    ∀ (rest : List α) (bs : List (List α)) (i : Nat), bs.length = m →
      (fillBucketsGo m bs i rest).flatten.Perm (bs.flatten ++ rest) := by
  intro rest
  induction rest with
  | nil => intro bs i hlen; simp [fillBucketsGo]
  | cons a rest ih =>
    intro bs i hlen
    have hk : i % m < bs.length := by rw [hlen]; exact Nat.mod_lt _ hm
    rw [fillBucketsGo]
    refine ((ih _ (i + 1) (by rw [length_bucketAppend, hlen])).trans ?_)
    refine (((flatten_bucketAppend bs (i % m) a hk).append_right rest).trans ?_)
    exact List.perm_middle.symm

theorem fillBuckets_flatten (m : Nat) (hm : 0 < m) (l : List α) :
    (fillBuckets m l).flatten.Perm l := by
  have h := fillBucketsGo_flatten m hm l (List.replicate m []) 0 (List.length_replicate m [])
  have hj : (List.replicate m ([] : List α)).flatten = [] := by
    induction m with
    | zero => rfl
    | succ n ih => simp [List.replicate_succ, ih]
  rw [fillBuckets]
  simpa [hj] using h

theorem getD_bucketAppend (bs : List (List α)) (k r : Nat) (a : α) (hk : k < bs.length) :
    (bucketAppend bs k a).getD r [] = if k = r then bs.getD r [] ++ [a] else bs.getD r [] := by
  induction bs generalizing k r with
  | nil => simp at hk
  | cons b bs ih =>
    cases k with
    | zero =>
      cases r with
      | zero => simp [bucketAppend]
      | succ r => simp [bucketAppend]
    | succ k =>
      cases r with
      | zero => simp [bucketAppend]
      | succ r =>
        have hk' : k < bs.length := by simpa using hk
        rw [bucketAppend_cons_succ, List.getD_cons_succ, ih k r hk']
        by_cases hkr : k = r <;> simp [hkr]

theorem fillBucketsGo_getD (m : Nat) (hm : 0 < m) :
    ∀ (rest : List α) (bs : List (List α)) (i r : Nat), bs.length = m → r < m →
      (fillBucketsGo m bs i rest).getD r [] = bs.getD r [] ++ everyNthFrom m r i rest := by
  intro rest
  induction rest with
  | nil => intro bs i r hlen hr; simp [fillBucketsGo, everyNthFrom]
  | cons a rest ih =>
    intro bs i r hlen hr
    have hk : i % m < bs.length := by rw [hlen]; exact Nat.mod_lt _ hm
    rw [fillBucketsGo, ih _ (i + 1) r (by rw [length_bucketAppend, hlen]) hr,
      getD_bucketAppend bs (i % m) r a hk, everyNthFrom]
    by_cases him : i % m = r <;> simp [him]

theorem getD_replicate_nil (m r : Nat) :
    (List.replicate m ([] : List α)).getD r [] = [] := by
  induction m generalizing r with
  | zero => simp
  | succ n ih =>
    cases r with
    | zero => simp [List.replicate_succ]
    | succ r => simp [List.replicate_succ, ih r]

theorem fillBuckets_getD (m : Nat) (hm : 0 < m) (l : List α) (r : Nat) (hr : r < m) :
    (fillBuckets m l).getD r [] = everyNthFrom m r 0 l := by
  rw [fillBuckets, fillBucketsGo_getD m hm l _ 0 r (List.length_replicate m []) hr,
    getD_replicate_nil]
  rfl

theorem everyNthFrom_mem (m : Nat) :
    ∀ (l : List α) (j i : Nat) (a : α), l.get? i = some a →
      a ∈ everyNthFrom m ((j + i) % m) j l := by
  intro l
  induction l with
  | nil => intro j i a h; simp at h
  | cons b bs ih =>
    intro j i a h
    cases i with
    | zero =>
      simp only [List.get?] at h
      cases h
      rw [everyNthFrom]
      simp
    | succ i =>
      have h' : bs.get? i = some a := by simpa using h
      have hmem := ih (j + 1) i a h'
      rw [everyNthFrom]
      have heq : (j + (i + 1)) % m = (j + 1 + i) % m := by
        congr 1
        omega
      rw [heq]
      exact List.mem_append_right _ hmem

/-- C9: rendering a group with zero entries raises an uncaught exception in
both formats: `ls_long` hits `entries[0]` (an `IndexError`, at line 64 in
recursive mode, line 69 otherwise), `ls_short` hits `entries[0]` in recursive
mode (`IndexError`) and otherwise `max()` of an empty sequence
(`ValueError`); neither is an `OSError`, so the handler in `lspy()` does not
catch them and no empty listing is printed.  An empty directory listed with
`showHidden` false produces exactly such an empty group. -/
theorem C9_empty_group_raises (xfrm : String → String) (plat : Platform)
    (args : Args) (t termW : Nat) (p : Pth) :
    lsLongGroup xfrm plat args t [] = .error .indexError
    ∧ lsShortGroup xfrm args termW []
        = .error (if args.recursive then PyErr.indexError else PyErr.valueError)
    ∧ caughtByLspyHandler .indexError = false
    ∧ caughtByLspyHandler .valueError = false
    ∧ pathGroups ⟨args.long, false, args.sort, false, args.files⟩ p (.dir []) = [[]] := by
  obtain ⟨lng, al, srt, rec, fls⟩ := args
  cases rec <;> cases srt <;>
    exact ⟨rfl, rfl, rfl, rfl, rfl⟩

/-- C7: evaluation of the owner/group resolution (lines 44–51) at an entry
with `st_uid = 1000`, `st_gid = 2000`.  With the name databases available the
group column is the name of UID 1000 (`getgrgid` is fed `st_uid`), not of GID
2000; with `ImportError` the owner column shows the numeric GID and the group
column the numeric UID (swapped relative to the claim). -/
theorem C7_owner_group_bug :
    resolveOwnerGroup plat0 ⟨0, 1, 1000, 2000⟩ = ("user1000", "grp1000")
    ∧ resolveOwnerGroup ⟨false, plat0.pw_name, plat0.gr_name⟩ ⟨0, 1, 1000, 2000⟩
        = ("2000", "1000")
    ∧ resolveOwnerGroup plat0 ⟨0, 1, 1000, 2000⟩ ≠ ("user1000", "grp2000")
    ∧ resolveOwnerGroup ⟨false, plat0.pw_name, plat0.gr_name⟩ ⟨0, 1, 1000, 2000⟩
        ≠ ("1000", "2000") := by
  refine ⟨rfl, rfl, ?_, ?_⟩ <;> decide

/-- C6 (amended): a non-recursive listing of a directory `d` containing
exactly `.hidden` and `visible`: with `showHidden` false the group is exactly
`[d/visible]`; with `showHidden` true it has exactly FOUR entries — the
parent pseudo-entry `Path('.')`, `d/..`, then `d/.hidden` and `d/visible` in
directory order. -/
theorem C6_hidden_toggle (n1 n2 : Node) (lng srt : Bool) :
    list_dir
        (fun q => if q = ["d"] then some (.dir [(".hidden", n1), ("visible", n2)]) else none)
        ⟨lng, false, srt, false, [["d"]]⟩ = .ok [[["d", "visible"]]]
    ∧ list_dir
        (fun q => if q = ["d"] then some (.dir [(".hidden", n1), ("visible", n2)]) else none)
        ⟨lng, true, srt, false, [["d"]]⟩
      = .ok [[([] : Pth), ["d", ".."], ["d", ".hidden"], ["d", "visible"]]] := by
  exact ⟨rfl, rfl⟩

/-- C6 counterexample: with `showHidden` true the group for the directory of
the claim has FOUR entries (`.`, `..`, `.hidden`, `visible`), not three as
the claim states. -/
theorem C6_counterexample :
    (okOr (list_dir
        (fun q => if q = ["d"] then some (.dir [(".hidden", .file), ("visible", .file)]) else none)
        ⟨false, true, false, false, [["d"]]⟩) []).headD []
      = [([] : Pth), ["d", ".."], ["d", ".hidden"], ["d", "visible"]]
    ∧ ([([] : Pth), ["d", ".."], ["d", ".hidden"], ["d", "visible"]].length ≠ 3) := by
  exact ⟨rfl, by decide⟩

/-- C3 (amended): when any input path does not exist, `list_dir` aborts the
whole run before returning any group — exactly the message `Specified path
does not exist.` is printed and the process terminates immediately via a bare
`sys.exit()`, whose exit status is 0 (success), not a non-zero status. -/
theorem C3_missing_path (fs : Pth → Option Node) (args : Args)
    (h : ∃ p ∈ args.files, fs p = none) :
    list_dir fs args = .error ⟨"Specified path does not exist.", 0⟩
    ∧ ∀ gs, list_dir fs args ≠ .ok gs := by
  have he : list_dir fs args = .error ⟨"Specified path does not exist.", 0⟩ := by
    rw [list_dir]
    exact listDirAux_missing h
  refine ⟨he, ?_⟩
  intro gs hgs
  rw [he] at hgs
  exact absurd hgs (by simp)

/-- C3 witness: a concrete run with a missing path argument. -/
theorem C3_witness :
    list_dir (fun _ => none) ⟨false, false, false, false, [["nope"]]⟩
      = .error ⟨"Specified path does not exist.", 0⟩ :=
  (C3_missing_path (fun _ => none) ⟨false, false, false, false, [["nope"]]⟩
    ⟨["nope"], by simp, rfl⟩).1

/-- C3 counterexample: the exit condition produced for a missing path carries
exit status 0 — the claimed non-zero/error exit status is wrong (`sys.exit()`
with no argument means success). -/
theorem C3_counterexample :
    list_dir (fun _ => none) ⟨false, false, false, false, [["gone"]]⟩
      = .error ⟨"Specified path does not exist.", 0⟩
    ∧ (⟨"Specified path does not exist.", 0⟩ : ExitCond).code = 0 := by
  exact ⟨rfl, rfl⟩

/-- C10: in recursive mode with `showHidden` false, no hidden-name filtering
happens: the groups are exactly the walk triples turned into paths, the
display names of a group are exactly `dirs_r ++ files_r` as reported by the
walk (no name is dropped), the first walk triple lists ALL immediate children
of the root directory, and `dirs_r ++ files_r` is a permutation of all the
children names (dotted ones included). -/
theorem C10_recursive_no_filter (lng srt : Bool) (fls : List Pth) (p : Pth)
    (cs : List (String × Node)) :
    pathGroups ⟨lng, false, srt, true, fls⟩ p (.dir cs)
        = (walkNode p (.dir cs)).map (recGroup ⟨lng, false, srt, true, fls⟩)
    ∧ (∀ wg : Grp, (recGroup ⟨lng, false, srt, true, fls⟩ wg).map pthName = wg.2.1 ++ wg.2.2)
    ∧ (walkNode p (.dir cs)).head? = some (p, dirNames cs, fileNames cs)
    ∧ (dirNames cs ++ fileNames cs).Perm (cs.map Prod.fst) := by
  refine ⟨rfl, ?_, rfl, dirNames_fileNames_perm cs⟩
  intro wg
  exact recGroup_names rfl wg

/-- C2 (amended): the value printed on the `total:` line of each long-format
group is the CUMULATIVE sum of `ceil(size / 1024)` over all groups up to and
including that one (`total_blocks` is initialised once, outside the group
loop); for the first group this equals the group's own sum, so a directory
with exactly one 2048-byte regular file prints `total: 2`, but a later
group's total does include sizes from earlier groups. -/
theorem C2_total_cumulative (xfrm : String → String) (plat : Platform)
    (args : Args) (groups : List (List PFile)) (outs : List LongGroupOut)
    (h : lsLong xfrm plat args groups = .ok outs) :
    outs.map (fun o => o.total) = runningTotals 0 (groups.map groupBlocks) := by
  rw [lsLong] at h
  exact lsLongAux_totals h

/-- C2 witness: a single group holding one 2048-byte regular file prints
`total: 2`. -/
theorem C2_witness :
    (okOr (lsLong id plat0 ⟨true, false, false, false, []⟩
        [[⟨⟨2048, 1, 0, 0⟩, "-rw-r--r--", "Jan 01 00:00", "f", "f"⟩]]) []).map
        (fun o => o.total) = [2] := by
  have h := C2_total_cumulative id plat0 ⟨true, false, false, false, []⟩
    [[⟨⟨2048, 1, 0, 0⟩, "-rw-r--r--", "Jan 01 00:00", "f", "f"⟩]]
    (okOr (lsLong id plat0 ⟨true, false, false, false, []⟩
        [[⟨⟨2048, 1, 0, 0⟩, "-rw-r--r--", "Jan 01 00:00", "f", "f"⟩]]) []) rfl
  rw [h]
  decide

/-- C2 counterexample: two groups of one 1024-byte file each — the second
group prints `total: 2`, which includes the first group's blocks, whereas the
claim says each group's total covers only its own entries (it would then be
1). -/
theorem C2_counterexample :
    (okOr (lsLong id plat0 ⟨true, false, false, false, []⟩
        [[⟨⟨1024, 1, 0, 0⟩, "m", "t", "a", "a"⟩],
         [⟨⟨1024, 1, 0, 0⟩, "m", "t", "b", "b"⟩]]) []).map (fun o => o.total)
      = [1, 2]
    ∧ (2 : Nat) ≠ 1 := by
  exact ⟨by decide, by decide⟩

/-- C4 (amended): the short-format column count is `terminalWidth //
longestPlainNameWidth` with NO `max(1, ·)` floor: on success it equals that
quotient (and is then necessarily ≥ 1, since a zero quotient never reaches
the grid), but when the terminal is narrower than the longest name (quotient
0, or a zero name width) the row computation divides by zero and the layout
fails with `ZeroDivisionError` instead of yielding one column. -/
theorem C4_no_min_one_column (xfrm : String → String) (args : Args)
    (termW : Nat) (files : List SFile) (o : ShortOut) (final : List ShortEntry) :
    (lsShortGroup xfrm args termW files = .ok o →
        o.numCols = termW / o.colWidth ∧ 1 ≤ o.numCols
          ∧ o.colWidth = maxWidth o.entriesSorted)
    ∧ (final ≠ [] → termW / maxWidth final = 0 →
        shortLayout termW final = .error .zeroDivisionError) := by
  constructor
  · intro h
    obtain ⟨f, hf⟩ := lsShortGroup_ok h
    obtain ⟨he, hcw, hnc, hne, -, -, -⟩ := shortLayout_ok hf
    refine ⟨?_, ?_, ?_⟩
    · rw [hnc, hcw]
    · omega
    · rw [hcw, he]
  · intro hne hdiv
    cases final with
    | nil => exact absurd rfl hne
    | cons e es =>
      rw [shortLayout]
      by_cases hcw : maxWidth (e :: es) = 0
      · simp only [hcw, reduceIte]
      · simp only [hcw, reduceIte]
        rw [if_pos hdiv]

/-- C4 witness: a wide terminal gives the plain quotient as column count
(here 80 / 2 = 40), and a 5-column terminal with a 10-character name fails
with `ZeroDivisionError`. -/
theorem C4_witness :
    (okOr (lsShortGroup id ⟨false, false, false, false, []⟩ 80 [⟨3, "ab", "ab"⟩])
        ⟨[], 0, 0, 0, []⟩).numCols
      = 80 / (okOr (lsShortGroup id ⟨false, false, false, false, []⟩ 80 [⟨3, "ab", "ab"⟩])
        ⟨[], 0, 0, 0, []⟩).colWidth
    ∧ shortLayout 5 [⟨"100", "abcdefghij", "abcdefghij"⟩] = .error .zeroDivisionError := by
  have h1 := C4_no_min_one_column id ⟨false, false, false, false, []⟩ 80 [⟨3, "ab", "ab"⟩]
    (okOr (lsShortGroup id ⟨false, false, false, false, []⟩ 80 [⟨3, "ab", "ab"⟩])
      ⟨[], 0, 0, 0, []⟩) [⟨"100", "abcdefghij", "abcdefghij"⟩]
  have h2 := C4_no_min_one_column id ⟨false, false, false, false, []⟩ 5 [⟨3, "ab", "ab"⟩]
    ⟨[], 0, 0, 0, []⟩ [⟨"100", "abcdefghij", "abcdefghij"⟩]
  exact ⟨(h1.1 rfl).1, h2.2 (by simp) (by decide)⟩

/-- C4 counterexample: terminal width 5 with a 10-character-wide name: the
code raises `ZeroDivisionError` (column count 5 // 10 = 0 is divided into the
entry count) instead of the claimed `max(1, 5 // 10) = 1` columns. -/
theorem C4_counterexample :
    lsShortGroup id ⟨false, false, false, false, []⟩ 5 [⟨100, "abcdefghij", "abcdefghij"⟩]
      = .error .zeroDivisionError
    ∧ max 1 (5 / 10) = 1 := by
  exact ⟨rfl, rfl⟩

/-- C5 (amended): after the name sort in recursive mode, the swap of the
first two entries is driven by `entries[0][1].startswith('..')`: in SHORT
format index 1 is the display name, so the swap fires exactly when the first
display name starts with `..`; in LONG format index 1 is the link-count
string — a decimal numeral, which never starts with `..` — so the first two
long-format rows are never swapped, contrary to the claim. -/
theorem C5_swap_behavior (xfrm : String → String) (args : Args)
    (lL : List LongEntry) (lS : List ShortEntry)
    (e0 e1 : LongEntry) (rest : List LongEntry)
    (f0 f1 : ShortEntry) (restS : List ShortEntry) :
    nameOrderLong xfrm args lL = recursiveSwapLong args.recursive (sortEntriesLong xfrm lL)
    ∧ recursiveSwapLong true (e0 :: e1 :: rest)
        = .ok (if strStartsWith e0.nlink ".." then e1 :: e0 :: rest else e0 :: e1 :: rest)
    ∧ nameOrderShort xfrm args lS = recursiveSwapShort args.recursive (sortEntriesShort xfrm lS)
    ∧ recursiveSwapShort true (f0 :: f1 :: restS)
        = .ok (if strStartsWith f0.fn_name ".." then f1 :: f0 :: restS else f0 :: f1 :: restS)
    ∧ (∀ (plat : Platform) (f : PFile),
        strStartsWith (buildLongEntry plat f).nlink ".." = false) := by
  refine ⟨rfl, ?_, rfl, ?_, ?_⟩
  · cases h : strStartsWith e0.nlink ".." <;> simp [recursiveSwapLong, h]
  · cases h : strStartsWith f0.fn_name ".." <;> simp [recursiveSwapShort, h]
  · intro plat f
    exact natRepr_no_dotdot _

/-- C5 counterexample: a recursive long-format group whose first name-sorted
entry has display name `../` (which starts with `..`, link count `2`): the
rendered rows keep the sorted order `["../", "a"]` — no swap happens, because
the code inspects the link-count field, not the display name. -/
theorem C5_counterexample :
    (okOr (lsLongGroup id plat0 ⟨true, true, false, true, []⟩ 0
        [⟨⟨0, 2, 0, 0⟩, "drwx", "t", "../", "../c"⟩,
         ⟨⟨0, 1, 0, 0⟩, "-rw-", "t", "a", "a"⟩]) ⟨0, [], []⟩).rows.map (fun e => e.fn_name)
      = ["../", "a"]
    ∧ strStartsWith "../" ".." = true := by
  exact ⟨by decide, by decide⟩

/-- C8: for every short-format group the code lays out successfully (which
forces a positive column count), every entry appears exactly once in the
printed grid (the concatenation of the grid rows is a permutation of the
sorted entries), the row count is `ceil(entryCount / columnCount)`, and the
entry at flat sorted index `i` lands in row bucket `i mod numRows` — the
column-major fill of the claim; rows are then printed bucket by bucket. -/
theorem C8_grid (xfrm : String → String) (args : Args) (termW : Nat)
    (files : List SFile) (o : ShortOut)
    (h : lsShortGroup xfrm args termW files = .ok o) :
    o.rows.flatten.Perm o.entriesSorted
    ∧ o.numRows = ceilDiv o.entriesSorted.length o.numCols
    ∧ 0 < o.numCols
    ∧ ∀ (i : Nat) (a : ShortEntry), o.entriesSorted.get? i = some a →
        a ∈ o.rows.getD (i % o.numRows) [] := by
  obtain ⟨final, hf⟩ := lsShortGroup_ok h
  obtain ⟨he, hcw, hnc, hne0, hfne, hnr, hrows⟩ := shortLayout_ok hf
  have hcols : 0 < o.numCols := Nat.pos_of_ne_zero hne0
  have hlen : 0 < final.length := List.length_pos.mpr hfne
  have hrpos : 0 < o.numRows := by
    rw [hnr]
    exact ceilDiv_pos hlen hcols
  refine ⟨?_, ?_, hcols, ?_⟩
  · rw [hrows, he]
    exact fillBuckets_flatten o.numRows hrpos final
  · rw [hnr, he]
  · intro i a hga
    rw [he] at hga
    have hmem := everyNthFrom_mem o.numRows final 0 i a hga
    rw [Nat.zero_add] at hmem
    rw [hrows, fillBuckets_getD o.numRows hrpos final (i % o.numRows)
      (Nat.mod_lt i hrpos)]
    exact hmem

/-- C8 witness: a concrete three-entry group in an 10-column terminal (one
row of three columns... column width 2, 5 columns, 1 row). -/
theorem C8_witness :
    (okOr (lsShortGroup id ⟨false, false, false, false, []⟩ 10
        [⟨1, "aa", "aa"⟩, ⟨2, "bb", "bb"⟩, ⟨3, "cc", "cc"⟩]) ⟨[], 0, 0, 0, []⟩).rows.flatten.Perm
      (okOr (lsShortGroup id ⟨false, false, false, false, []⟩ 10
        [⟨1, "aa", "aa"⟩, ⟨2, "bb", "bb"⟩, ⟨3, "cc", "cc"⟩]) ⟨[], 0, 0, 0, []⟩).entriesSorted
    ∧ (okOr (lsShortGroup id ⟨false, false, false, false, []⟩ 10
        [⟨1, "aa", "aa"⟩, ⟨2, "bb", "bb"⟩, ⟨3, "cc", "cc"⟩]) ⟨[], 0, 0, 0, []⟩).numRows
      = ceilDiv 3 5
    ∧ (⟨"1", "aa", "aa"⟩ : ShortEntry) ∈
        (okOr (lsShortGroup id ⟨false, false, false, false, []⟩ 10
          [⟨1, "aa", "aa"⟩, ⟨2, "bb", "bb"⟩, ⟨3, "cc", "cc"⟩]) ⟨[], 0, 0, 0, []⟩).rows.getD 0 [] := by
  have h := C8_grid id ⟨false, false, false, false, []⟩ 10
    [⟨1, "aa", "aa"⟩, ⟨2, "bb", "bb"⟩, ⟨3, "cc", "cc"⟩]
    (okOr (lsShortGroup id ⟨false, false, false, false, []⟩ 10
      [⟨1, "aa", "aa"⟩, ⟨2, "bb", "bb"⟩, ⟨3, "cc", "cc"⟩]) ⟨[], 0, 0, 0, []⟩) rfl
  refine ⟨h.1, h.2.1.trans (by decide), ?_⟩
  have := h.2.2.2 0 ⟨"1", "aa", "aa"⟩ (by decide)
  simpa using this

/-- C1 (amended): with `sortBySize` set, the rendered entries of a group (in
both formats) are in descending LEXICOGRAPHIC order of the decimal string
`str(st_size)` — the sort key is the size string, not the number — and
entries with equal size keep the order of the preceding name sort (plus
pseudo-entry swap): the size re-sort is stable with respect to it. -/
theorem C1_size_sort (xfrm : String → String) (plat : Platform) (args : Args)
    (totalIn termW : Nat) (filesL : List PFile) (filesS : List SFile)
    (preL : List LongEntry) (oL : LongGroupOut)
    (preS : List ShortEntry) (oS : ShortOut)
    (hsort : args.sort = true)
    (hpreL : nameOrderLong xfrm args (filesL.map (buildLongEntry plat)) = .ok preL)
    (hoL : lsLongGroup xfrm plat args totalIn filesL = .ok oL)
    (hpreS : nameOrderShort xfrm args (filesS.map mkShortEntry) = .ok preS)
    (hoS : lsShortGroup xfrm args termW filesS = .ok oS) :
    (oL.rows.Pairwise fun x y => strLe y.size x.size = true)
    ∧ (∀ k : String, oL.rows.filter (fun e => decide (e.size = k))
        = preL.filter fun e => decide (e.size = k))
    ∧ (oS.entriesSorted.Pairwise fun x y => strLe y.size x.size = true)
    ∧ (∀ k : String, oS.entriesSorted.filter (fun e => decide (e.size = k))
        = preS.filter fun e => decide (e.size = k)) := by
  have hrowsL : oL.rows = stableSort rDescLong preL := lsLongGroup_rows hpreL hsort hoL
  have hfinS := lsShortGroup_final hpreS hsort hoS
  have hES : oS.entriesSorted = stableSort rDescShort preS := (shortLayout_ok hfinS).1
  refine ⟨?_, ?_, ?_, ?_⟩
  · rw [hrowsL]
    exact pairwise_stableSort_byKeyRev (fun e => e.size) preL
  · intro k
    rw [hrowsL]
    exact filter_stableSort_byKeyRev (fun e => e.size) k preL
  · rw [hES]
    exact pairwise_stableSort_byKeyRev (fun e => e.size) preS
  · intro k
    rw [hES]
    exact filter_stableSort_byKeyRev (fun e => e.size) k preS

/-- C1 witness: two entries of equal size 1024 with names `b`, `a`; after the
name sort and the (stable) size sort the rendered order is still `a`, `b` in
both formats, and the filters agree with the name-sorted list. -/
theorem C1_witness :
    ((okOr (lsLongGroup id plat0 ⟨true, false, true, false, []⟩ 0
        [⟨⟨1024, 1, 0, 0⟩, "m", "t", "b", "b"⟩, ⟨⟨1024, 1, 0, 0⟩, "m", "t", "a", "a"⟩])
        ⟨0, [], []⟩).rows.Pairwise fun x y => strLe y.size x.size = true)
    ∧ (okOr (lsLongGroup id plat0 ⟨true, false, true, false, []⟩ 0
        [⟨⟨1024, 1, 0, 0⟩, "m", "t", "b", "b"⟩, ⟨⟨1024, 1, 0, 0⟩, "m", "t", "a", "a"⟩])
        ⟨0, [], []⟩).rows.filter (fun e => decide (e.size = "1024"))
      = (okOr (nameOrderLong id ⟨true, false, true, false, []⟩
          (([⟨⟨1024, 1, 0, 0⟩, "m", "t", "b", "b"⟩,
            ⟨⟨1024, 1, 0, 0⟩, "m", "t", "a", "a"⟩] : List PFile).map (buildLongEntry plat0))) []).filter
          (fun e => decide (e.size = "1024"))
    ∧ ((okOr (lsShortGroup id ⟨true, false, true, false, []⟩ 80
        [⟨1024, "b", "b"⟩, ⟨1024, "a", "a"⟩]) ⟨[], 0, 0, 0, []⟩).entriesSorted.Pairwise
        fun x y => strLe y.size x.size = true)
    ∧ (okOr (lsShortGroup id ⟨true, false, true, false, []⟩ 80
        [⟨1024, "b", "b"⟩, ⟨1024, "a", "a"⟩]) ⟨[], 0, 0, 0, []⟩).entriesSorted.filter
        (fun e => decide (e.size = "1024"))
      = (okOr (nameOrderShort id ⟨true, false, true, false, []⟩
          (([⟨1024, "b", "b"⟩, ⟨1024, "a", "a"⟩] : List SFile).map mkShortEntry)) []).filter
          fun e => decide (e.size = "1024") := by
  have h := C1_size_sort id plat0 ⟨true, false, true, false, []⟩ 0 80
    [⟨⟨1024, 1, 0, 0⟩, "m", "t", "b", "b"⟩, ⟨⟨1024, 1, 0, 0⟩, "m", "t", "a", "a"⟩]
    [⟨1024, "b", "b"⟩, ⟨1024, "a", "a"⟩]
    (okOr (nameOrderLong id ⟨true, false, true, false, []⟩
      (([⟨⟨1024, 1, 0, 0⟩, "m", "t", "b", "b"⟩,
        ⟨⟨1024, 1, 0, 0⟩, "m", "t", "a", "a"⟩] : List PFile).map (buildLongEntry plat0))) [])
    (okOr (lsLongGroup id plat0 ⟨true, false, true, false, []⟩ 0
      [⟨⟨1024, 1, 0, 0⟩, "m", "t", "b", "b"⟩, ⟨⟨1024, 1, 0, 0⟩, "m", "t", "a", "a"⟩])
      ⟨0, [], []⟩)
    (okOr (nameOrderShort id ⟨true, false, true, false, []⟩
      (([⟨1024, "b", "b"⟩, ⟨1024, "a", "a"⟩] : List SFile).map mkShortEntry)) [])
    (okOr (lsShortGroup id ⟨true, false, true, false, []⟩ 80
      [⟨1024, "b", "b"⟩, ⟨1024, "a", "a"⟩]) ⟨[], 0, 0, 0, []⟩)
    rfl rfl rfl rfl rfl
  exact ⟨h.1, h.2.1 "1024", h.2.2.1, h.2.2.2 "1024"⟩

/-- C1 counterexample: sizes 9 and 10 with `sortBySize` set: the rendered
long-format order is `("9", "a")` before `("10", "b")` because the size
STRINGS are compared (`"9" > "10"` lexicographically), so the entries are NOT
in descending numeric size order (9 < 10). -/
theorem C1_counterexample :
    (okOr (lsLongGroup id plat0 ⟨true, false, true, false, []⟩ 0
        [⟨⟨9, 1, 0, 0⟩, "m", "t", "a", "a"⟩, ⟨⟨10, 1, 0, 0⟩, "m", "t", "b", "b"⟩])
        ⟨0, [], []⟩).rows.map (fun e => (e.size, e.fn_name))
      = [("9", "a"), ("10", "b")]
    ∧ (9 : Nat) < 10 := by
  exact ⟨by decide, by decide⟩
